import Mathlib

/-!
Shallow embedding of `src/main.ts` (BerndAmend/deno_serial): a Deno FFI
wrapper around the POSIX serial API.  Pure computations (the termios byte
buffer manipulation, the line splitting of `read_line`) are translated into
executable Lean functions; each OS syscall is an oracle input (the value the
OS returns) and every operation also reports the list of syscalls it issued,
so that ordering, short-circuiting and double-close behaviour are visible.
-/

namespace DenoSerial

/-! Constants of src/main.ts lines 24-42 (Linux/glibc values). -/

def O_RDWR : Nat := 0x2

def O_NOCTTY : Nat := 0x100

def O_SYNC : Nat := 0x101000

def TCSANOW : Nat := 0

def CSIZE : Nat := 0o000060

def CS5 : Nat := 0o000000

def CS6 : Nat := 0o000020

def CS7 : Nat := 0o000040

def CS8 : Nat := 0o000060

def CSTOPB : Nat := 0o000100

def CREAD : Nat := 0o000200

def PARENB : Nat := 0o000400

def PARODD : Nat := 0o001000

def HUPCL : Nat := 0o002000

def CLOCAL : Nat := 0o004000

def CRTSCTS : Nat := 0o20000000000

def VTIME : Nat := 5

def VMIN : Nat := 6

/-- The `Baudrate` const enum of src/main.ts lines 44-63. -/
inductive Baudrate
  | B9600
  | B19200
  | B38400
  | B57600
  | B115200
  | B230400
  | B460800
  | B500000
  | B576000
  | B921600
  | B1000000
  | B1152000
  | B1500000
  | B2000000
  | B2500000
  | B3000000
  | B3500000
  | B4000000
deriving DecidableEq

/-- The numeric value of each `Baudrate` enum member (src/main.ts lines 44-63). -/
def Baudrate.toNat : Baudrate → Nat
  | .B9600 => 0o000015
  | .B19200 => 0o000016
  | .B38400 => 0o000017
  | .B57600 => 0o010001
  | .B115200 => 0o010002
  | .B230400 => 0o010003
  | .B460800 => 0o010004
  | .B500000 => 0o010005
  | .B576000 => 0o010006
  | .B921600 => 0o010007
  | .B1000000 => 0o010010
  | .B1152000 => 0o010011
  | .B1500000 => 0o010012
  | .B2000000 => 0o010013
  | .B2500000 => 0o010014
  | .B3000000 => 0o010015
  | .B3500000 => 0o010016
  | .B4000000 => 0o010017

/-- `SerialOptions` (src/main.ts lines 65-70).  The two counts are `Int`,
embedding an integral JavaScript `number` (which may be negative or above
255; `DataView.setUint8` truncates on store).  `buffer_size` is optional. -/
structure SerialOptions where
  baudrate : Baudrate
  timeout_in_deciseconds : Int
  minimum_number_of_chars_read : Int
  buffer_size : Option Nat
deriving DecidableEq

/-! ## The termios byte buffer

`open` allocates `new ArrayBuffer(100)` and manipulates it through a
`DataView`.  A buffer is a list of byte values; `DataView.setUint8` stores
its argument reduced mod 256 (JavaScript ToUint8 on integers) and
`DataView.setUint32`/`getUint32` store and load four bytes in the order
selected by the `littleEndian` flag. -/

abbrev Buf := List Nat

/-- `DataView.getUint8`-style read of one byte (out of range reads 0). -/
def getUint8 (b : Buf) (off : Nat) : Nat := b.getD off 0

/-- `DataView.setUint8`: JavaScript ToUint8 reduces an integral number
mod 2^8 before storing. -/
def setUint8 (b : Buf) (off : Nat) (v : Int) : Buf :=
  b.set off (v % 256).toNat

/-- `DataView.setUint32 off v littleEndian`: ToUint32 reduces mod 2^32, then
the four bytes are stored in the order given by the endianness flag. -/
def setUint32 (b : Buf) (off : Nat) (v : Nat) (le : Bool) : Buf :=
  let w := v % 2 ^ 32
  cond le
    ((((b.set off (w % 256)).set (off + 1) (w / 2 ^ 8 % 256)).set
        (off + 2) (w / 2 ^ 16 % 256)).set (off + 3) (w / 2 ^ 24 % 256))
    ((((b.set off (w / 2 ^ 24 % 256)).set (off + 1) (w / 2 ^ 16 % 256)).set
        (off + 2) (w / 2 ^ 8 % 256)).set (off + 3) (w % 256))

/-- `DataView.getUint32 off littleEndian`. -/
def getUint32 (b : Buf) (off : Nat) (le : Bool) : Nat :=
  cond le
    (getUint8 b off + 2 ^ 8 * getUint8 b (off + 1) + 2 ^ 16 * getUint8 b (off + 2) +
      2 ^ 24 * getUint8 b (off + 3))
    (2 ^ 24 * getUint8 b off + 2 ^ 16 * getUint8 b (off + 1) + 2 ^ 8 * getUint8 b (off + 2) +
      getUint8 b (off + 3))

/-! JavaScript's bitwise operators convert both operands to 32 bits before
operating; on the unsigned representatives this is the operation below. -/

/-- JavaScript `~x` on the unsigned 32-bit representative. -/
def not32 (x : Nat) : Nat := (2 ^ 32 - 1) ^^^ (x % 2 ^ 32)

/-- JavaScript `x & y` on the unsigned 32-bit representatives. -/
def and32 (x y : Nat) : Nat := (x % 2 ^ 32) &&& (y % 2 ^ 32)

/-- JavaScript `x | y` on the unsigned 32-bit representatives. -/
def or32 (x y : Nat) : Nat := (x % 2 ^ 32) ||| (y % 2 ^ 32)

/-- The `cflag` pipeline of src/main.ts lines 244-250: clear PARENB, clear
CSTOPB, clear CSIZE, set CS8, clear CRTSCTS, set CREAD and CLOCAL. -/
def apply_cflag (cflag : Nat) : Nat :=
  let c1 := and32 cflag (not32 PARENB)
  let c2 := and32 c1 (not32 CSTOPB)
  let c3 := and32 c2 (not32 CSIZE)
  let c4 := or32 c3 CS8
  let c5 := and32 c4 (not32 CRTSCTS)
  or32 c5 (CREAD ||| CLOCAL)

/-- The termios image `open` commits via `tcsetattr` (src/main.ts lines
239-257), as a function of the buffer contents `tty` left by
`tcgetattr`/`cfsetspeed`, the platform endianness flag and the options:
zero `c_iflag` (offset 0) and `c_oflag` (offset 4), rewrite `c_cflag`
(offset 8) through `apply_cflag`, zero `c_lflag` (offset 12), and store the
timeout and minimum-read counts at offsets 17+VTIME and 17+VMIN. -/
def configure_termios (tty : Buf) (le : Bool) (opts : SerialOptions) : Buf :=
  let b1 := setUint32 tty 0 0 le
  let b2 := setUint32 b1 4 0 le
  let cflag := getUint32 b2 8 le
  let b3 := setUint32 b2 8 (apply_cflag cflag) le
  let b4 := setUint32 b3 12 0 le
  let b5 := setUint8 b4 (17 + VTIME) opts.timeout_in_deciseconds
  setUint8 b5 (17 + VMIN) opts.minimum_number_of_chars_read

/-! ## Errors and syscall traces -/

/-- The error kinds of the specification's error taxonomy.  The code throws
plain `Error`s; the kind is determined by the throw site.  `ClosedHandle`
appears in the specification only: no throw site of src/main.ts produces
it. -/
inductive ErrKind
  | OpenFailed
  | GetAttributesFailed
  | SetAttributesFailed
  | IoError
  | ShortWrite
  | CloseError
  | ClosedHandle
deriving DecidableEq

/-- An error as thrown by src/main.ts: its kind plus the `Error` message
built at the throw site. -/
structure SerialError where
  kind : ErrKind
  msg : String
deriving DecidableEq

/-- The apostrophe character, used by the message templates of src/main.ts. -/
def apostrophe : String := String.singleton (Char.ofNat 39)

/-- `result.failsWith k`: the computation threw an error of kind `k`. -/
def failsWith {α : Type} (r : Except SerialError α) (k : ErrKind) : Prop :=
  ∃ m, r = Except.error ⟨k, m⟩

instance {α : Type} [DecidableEq α] (r : Except SerialError α) (k : ErrKind) :
    Decidable (failsWith r k) := by
  unfold failsWith
  match r with
  | Except.ok _ => exact isFalse (by simp)
  | Except.error e =>
    refine decidable_of_iff (e.kind = k) ?_
    constructor
    · intro h
      exact ⟨e.msg, by cases e; simp_all⟩
    · rintro ⟨m, hm⟩
      cases hm
      rfl

instance {ε α : Type} [DecidableEq ε] [DecidableEq α] : DecidableEq (Except ε α) := fun x y =>
  match x, y with
  | Except.ok a, Except.ok b =>
    if h : a = b then isTrue (by rw [h]) else isFalse (by simp [h])
  | Except.ok _, Except.error _ => isFalse (by simp)
  | Except.error _, Except.ok _ => isFalse (by simp)
  | Except.error a, Except.error b =>
    if h : a = b then isTrue (by rw [h]) else isFalse (by simp [h])

/-- One OS call issued through the FFI table of src/main.ts.  `osTcsetattr`
records the buffer contents committed to the device. -/
inductive Syscall
  | osOpen (path : String) (flags : Nat)
  | osRead (fd : Int) (count : Nat)
  | osWrite (fd : Int) (count : Nat)
  | osClose (fd : Int)
  | osTcgetattr (fd : Int)
  | osCfsetspeed (baud : Nat)
  | osTcsetattr (fd : Int) (action : Nat) (tty : Buf)
deriving DecidableEq

/-! ## SerialPort (src/main.ts lines 145-210)

The class holds exactly the two constructor fields `fd` and `options`; it
has no open/closed flag and no other mutable state, so each method returns
the (unchanged) instance state where relevant.  Each method takes the OS
return values as oracle arguments (`rlen`, `wlen`, `ret`: what the FFI call
returned; `buf`: the bytes the OS wrote into the freshly allocated read
buffer; `errnoStr`: what `strerror(errno)` renders) and returns its result
together with the syscalls it issued. -/

structure SerialPort where
  fd : Int
  options : SerialOptions
deriving DecidableEq

/-- `SerialPort.read` (src/main.ts lines 152-163): one OS read of at most
`buffer_size ?? 255` bytes; negative `rlen` throws, otherwise the filled
prefix `buf.take rlen` is returned. -/
def SerialPort.read (p : SerialPort) (rlen : Int) (buf : List Nat) (errnoStr : String) :
    Except SerialError (List Nat) × List Syscall :=
  let bufsize := p.options.buffer_size.getD 255
  if rlen < 0 then
    (Except.error ⟨ErrKind.IoError, "Error while reading: " ++ errnoStr⟩,
      [Syscall.osRead p.fd bufsize])
  else
    (Except.ok (buf.take rlen.toNat), [Syscall.osRead p.fd bufsize])

/-- `SerialPort.write` (src/main.ts lines 185-197): one OS write of the full
buffer; negative `wlen` throws an I/O error, a count different from
`data.length` throws the short-write error, and there is no retry. -/
def SerialPort.write (p : SerialPort) (data : List Nat) (wlen : Int) (errnoStr : String) :
    Except SerialError Unit × List Syscall :=
  if wlen < 0 then
    (Except.error ⟨ErrKind.IoError, "Error while writing: " ++ errnoStr⟩,
      [Syscall.osWrite p.fd data.length])
  else if wlen ≠ (data.length : Int) then
    (Except.error ⟨ErrKind.ShortWrite, "Couldn" ++ apostrophe ++ "t write data"⟩,
      [Syscall.osWrite p.fd data.length])
  else
    (Except.ok (), [Syscall.osWrite p.fd data.length])

/-- `SerialPort.close` (src/main.ts lines 204-209): unconditionally issue
the OS close on the stored descriptor, throw when it reports failure, and
leave the instance state unchanged (the class has no closed flag). -/
def SerialPort.close (p : SerialPort) (ret : Int) (errnoStr : String) :
    Except SerialError Unit × SerialPort × List Syscall :=
  if ret < 0 then
    (Except.error ⟨ErrKind.CloseError, "Error while closing: " ++ errnoStr⟩, p,
      [Syscall.osClose p.fd])
  else
    (Except.ok (), p, [Syscall.osClose p.fd])

/-! ## open (src/main.ts lines 218-264) -/

/-- The OS-side oracle of one run of `open`: what each FFI call returns and
what the calls leave in the 100-byte termios buffer.  `ttyAfterGet` is the
buffer contents after `tcgetattr`, `ttyAfterSpeed` after `cfsetspeed` (an
opaque libc call that may rewrite speed fields); `errnoStr` is what
`strerror(errno)` renders at a failing step. -/
structure OpenOracle where
  fd : Int
  tcgetattrRet : Int
  ttyAfterGet : Buf
  cfsetspeedRet : Int
  ttyAfterSpeed : Buf
  tcsetattrRet : Int
  errnoStr : String
deriving DecidableEq

/-- The message of the `OpenFailed` throw site (src/main.ts line 226). -/
def openFailedMsg (file errnoStr : String) : String :=
  "Couldn" ++ apostrophe ++ "t open " ++ apostrophe ++ file ++ apostrophe ++ ": " ++ errnoStr

/-- `open(file, options)` (src/main.ts lines 218-264): open the device with
`O_RDWR | O_NOCTTY | O_SYNC` and throw when the descriptor is negative;
read the current termios and throw when `tcgetattr` is nonzero; call
`cfsetspeed` with the baudrate, ignoring its return value; rewrite the
buffer through `configure_termios`; commit it with `tcsetattr(fd, TCSANOW)`
and throw when that is nonzero; otherwise wrap the descriptor and options
in a `SerialPort`.  The second component is the syscall trace. -/
def openPort (file : String) (opts : SerialOptions) (le : Bool) (o : OpenOracle) :
    Except SerialError SerialPort × List Syscall :=
  let flags := O_RDWR ||| O_NOCTTY ||| O_SYNC
  if o.fd < 0 then
    (Except.error ⟨ErrKind.OpenFailed, openFailedMsg file o.errnoStr⟩,
      [Syscall.osOpen file flags])
  else if o.tcgetattrRet ≠ 0 then
    (Except.error ⟨ErrKind.GetAttributesFailed, "tcgetattr: " ++ o.errnoStr⟩,
      [Syscall.osOpen file flags, Syscall.osTcgetattr o.fd])
  else
    let committed := configure_termios o.ttyAfterSpeed le opts
    let trace := [Syscall.osOpen file flags, Syscall.osTcgetattr o.fd,
      Syscall.osCfsetspeed opts.baudrate.toNat, Syscall.osTcsetattr o.fd TCSANOW committed]
    if o.tcsetattrRet ≠ 0 then
      (Except.error ⟨ErrKind.SetAttributesFailed, "tcsetattr: " ++ o.errnoStr⟩, trace)
    else
      (Except.ok ⟨o.fd, opts⟩, trace)

/-! ## read_line (src/main.ts lines 169-183)

The generator keeps a pending string `data`; each underlying `read_string`
chunk is skipped when empty, otherwise appended to `data`, the result split
on the newline character (JavaScript `String.prototype.split`), the last
segment kept pending and the others yielded in order.  Strings are embedded
as `List Char` so that the split is a structural recursion. -/

abbrev Str := List Char

/-- JavaScript `s.split(sep)` for a one-character separator: always a
nonempty list of the separator-free segments, in order. -/
def jsSplit (sep : Char) : Str → List Str
  | [] => [[]]
  | c :: rest =>
    match jsSplit sep rest with
    | [] => [[]]
    | h :: t => if c = sep then [] :: h :: t else (c :: h) :: t

/-- One iteration of the `read_line` loop body on pending text `data` and a
freshly read chunk: `(new pending text, lines yielded in order)`.  An empty
chunk is skipped (`continue`); otherwise the concatenation is split on
newline, the popped last segment becomes the pending text and the remaining
segments are yielded. -/
def read_line_step (data chunk : Str) : Str × List Str :=
  if chunk.length = 0 then (data, [])
  else
    let lines := jsSplit (Char.ofNat 10) (data ++ chunk)
    (lines.getLastD [], lines.dropLast)

/-- The `read_line` generator run over a finite prefix of the underlying
chunk sequence, from pending text `data`: the pending text left and every
line yielded, in order. -/
def read_line_run (data : Str) : List Str → Str × List Str
  | [] => (data, [])
  | chunk :: rest =>
    let s := read_line_step data chunk
    let r := read_line_run s.1 rest
    (r.1, s.2 ++ r.2)

/-- Join a list of segments with the separator between consecutive segments:
the left inverse of `jsSplit`. -/
def joinWith (sep : Char) : List Str → Str
  | [] => []
  | l :: ls =>
    match ls with
    | [] => l
    | l2 :: ls2 => l ++ sep :: joinWith sep (l2 :: ls2)

/-! ## Lemmas about the byte buffer -/

theorem getD_set_self (l : List Nat) (i v : Nat) (h : i < l.length) :
    (l.set i v).getD i 0 = v := by
  simp [List.getD, List.getElem?_set, h]

theorem getD_set_of_ne (l : List Nat) (i j v : Nat) (h : i ≠ j) :
    (l.set i v).getD j 0 = l.getD j 0 := by
  simp [List.getD, List.getElem?_set, h]

theorem length_setUint8 (b : Buf) (off : Nat) (v : Int) :
    (setUint8 b off v).length = b.length := by
  simp [setUint8]

theorem length_setUint32 (b : Buf) (off : Nat) (v : Nat) (le : Bool) :
    (setUint32 b off v le).length = b.length := by
  unfold setUint32
  cases le <;> simp

theorem getUint8_setUint8_self (b : Buf) (off : Nat) (v : Int) (h : off < b.length) :
    getUint8 (setUint8 b off v) off = (v % 256).toNat := by
  simp [getUint8, setUint8, getD_set_self, h]

theorem getUint8_setUint8_of_ne (b : Buf) (off j : Nat) (v : Int) (h : off ≠ j) :
    getUint8 (setUint8 b off v) j = getUint8 b j := by
  simp [getUint8, setUint8, getD_set_of_ne, h]

theorem getUint8_setUint32_outside (b : Buf) (off j : Nat) (v : Nat) (le : Bool)
    (h : j < off ∨ off + 3 < j) : getUint8 (setUint32 b off v le) j = getUint8 b j := by
  unfold setUint32 getUint8
  cases le <;>
    simp only [cond_true, cond_false] <;>
    rw [getD_set_of_ne _ (off + 3) j _ (by omega), getD_set_of_ne _ (off + 2) j _ (by omega),
      getD_set_of_ne _ (off + 1) j _ (by omega), getD_set_of_ne _ off j _ (by omega)]

theorem getUint32_setUint8_outside (b : Buf) (off j : Nat) (v : Int) (le : Bool)
    (h : j < off ∨ off + 3 < j) : getUint32 (setUint8 b j v) off le = getUint32 b off le := by
  unfold getUint32
  rw [getUint8_setUint8_of_ne b j off v (by omega),
    getUint8_setUint8_of_ne b j (off + 1) v (by omega),
    getUint8_setUint8_of_ne b j (off + 2) v (by omega),
    getUint8_setUint8_of_ne b j (off + 3) v (by omega)]

theorem getUint32_setUint32_outside (b : Buf) (off off2 : Nat) (v : Nat) (le le2 : Bool)
    (h : off + 3 < off2 ∨ off2 + 3 < off) :
    getUint32 (setUint32 b off2 v le2) off le = getUint32 b off le := by
  unfold getUint32
  rw [getUint8_setUint32_outside b off2 off v le2 (by omega),
    getUint8_setUint32_outside b off2 (off + 1) v le2 (by omega),
    getUint8_setUint32_outside b off2 (off + 2) v le2 (by omega),
    getUint8_setUint32_outside b off2 (off + 3) v le2 (by omega)]

theorem getD_quad (b : Buf) (off a0 a1 a2 a3 : Nat) (h : off + 3 < b.length) :
    ((((b.set off a0).set (off + 1) a1).set (off + 2) a2).set (off + 3) a3).getD off 0 = a0 ∧
    ((((b.set off a0).set (off + 1) a1).set (off + 2) a2).set (off + 3) a3).getD (off + 1) 0
      = a1 ∧
    ((((b.set off a0).set (off + 1) a1).set (off + 2) a2).set (off + 3) a3).getD (off + 2) 0
      = a2 ∧
    ((((b.set off a0).set (off + 1) a1).set (off + 2) a2).set (off + 3) a3).getD (off + 3) 0
      = a3 := by
  refine ⟨?_, ?_, ?_, ?_⟩
  · rw [getD_set_of_ne _ (off + 3) off _ (by omega), getD_set_of_ne _ (off + 2) off _ (by omega),
      getD_set_of_ne _ (off + 1) off _ (by omega), getD_set_self _ off _ (by omega)]
  · rw [getD_set_of_ne _ (off + 3) (off + 1) _ (by omega),
      getD_set_of_ne _ (off + 2) (off + 1) _ (by omega),
      getD_set_self _ (off + 1) _ (by simp only [List.length_set]; omega)]
  · rw [getD_set_of_ne _ (off + 3) (off + 2) _ (by omega),
      getD_set_self _ (off + 2) _ (by simp only [List.length_set]; omega)]
  · rw [getD_set_self _ (off + 3) _ (by simp only [List.length_set]; omega)]

theorem getUint32_setUint32_self (b : Buf) (off v : Nat) (le : Bool)
    (h : off + 3 < b.length) : getUint32 (setUint32 b off v le) off le = v % 2 ^ 32 := by
  have hw : v % 2 ^ 32 < 2 ^ 32 := Nat.mod_lt _ (by norm_num)
  obtain ⟨h0, h1, h2, h3⟩ := getD_quad b off (v % 2 ^ 32 % 256) (v % 2 ^ 32 / 2 ^ 8 % 256)
    (v % 2 ^ 32 / 2 ^ 16 % 256) (v % 2 ^ 32 / 2 ^ 24 % 256) h
  obtain ⟨g0, g1, g2, g3⟩ := getD_quad b off (v % 2 ^ 32 / 2 ^ 24 % 256)
    (v % 2 ^ 32 / 2 ^ 16 % 256) (v % 2 ^ 32 / 2 ^ 8 % 256) (v % 2 ^ 32 % 256) h
  unfold setUint32 getUint32 getUint8
  cases le <;> simp only [cond_true, cond_false]
  · rw [g0, g1, g2, g3]
    omega
  · rw [h0, h1, h2, h3]
    omega

/-! ## Bit-level facts about the cflag pipeline -/

theorem or32_lt (x y : Nat) : or32 x y < 2 ^ 32 := by
  apply Nat.lt_pow_two_of_testBit
  intro i hi
  have h32 : ¬ i < 32 := by omega
  unfold or32
  rw [Nat.testBit_lor, Nat.testBit_mod_two_pow, Nat.testBit_mod_two_pow]
  simp [h32]

theorem apply_cflag_lt (c : Nat) : apply_cflag c < 2 ^ 32 := by
  unfold apply_cflag
  exact or32_lt _ _

/-- Bit `i` of the rewritten `cflag`: bits 8 (PARENB), 6 (CSTOPB), 4 and 5
(CSIZE) and 31 (CRTSCTS) are cleared, then bits 4 and 5 (CS8), 7 (CREAD)
and 11 (CLOCAL) are set; every other bit below 32 is kept and bits from 32
up are zero. -/
theorem testBit_apply_cflag (c i : Nat) :
    (apply_cflag c).testBit i =
      (decide (i < 32) &&
        ((c.testBit i &&
            !(decide (i = 8) || decide (i = 6) || decide (i = 4) || decide (i = 5) ||
              decide (i = 31))) ||
          (decide (i = 4) || decide (i = 5) || decide (i = 7) || decide (i = 11)))) := by
  unfold apply_cflag and32 or32 not32 PARENB CSTOPB CSIZE CS8 CRTSCTS CREAD CLOCAL
  rcases Nat.lt_or_ge i 32 with h | h
  · simp only [Nat.testBit_lor, Nat.testBit_land, Nat.testBit_xor, Nat.testBit_mod_two_pow,
      Nat.testBit_two_pow_sub_one,
      show (0o400 : Nat) = 2 ^ 8 by norm_num, show (0o100 : Nat) = 2 ^ 6 by norm_num,
      show (0o60 : Nat) = 2 ^ 4 ||| 2 ^ 5 by decide, show (0o200 : Nat) = 2 ^ 7 by norm_num,
      show (0o4000 : Nat) = 2 ^ 11 by norm_num, show (0o20000000000 : Nat) = 2 ^ 31 by norm_num,
      Nat.testBit_two_pow]
    interval_cases i <;> simp [eq_comm]
  · have h32 : ¬ i < 32 := by omega
    simp only [Nat.testBit_lor, Nat.testBit_land, Nat.testBit_xor, Nat.testBit_mod_two_pow,
      Nat.testBit_two_pow_sub_one, decide_eq_false h32, Bool.false_and, Bool.and_false,
      Bool.false_or, Bool.or_false, Bool.false_xor, Bool.xor_false]

theorem apply_cflag_land_CSIZE (c : Nat) : apply_cflag c &&& CSIZE = CS8 := by
  apply Nat.eq_of_testBit_eq
  intro i
  rw [Nat.testBit_land, testBit_apply_cflag]
  simp only [CSIZE, CS8, show (0o60 : Nat) = 2 ^ 4 ||| 2 ^ 5 by decide, Nat.testBit_lor,
    Nat.testBit_two_pow]
  by_cases h4 : i = 4
  · subst h4; simp
  by_cases h5 : i = 5
  · subst h5; simp
  simp [h4, h5, eq_comm]

theorem apply_cflag_land_PARENB (c : Nat) : apply_cflag c &&& PARENB = 0 := by
  apply Nat.eq_of_testBit_eq
  intro i
  rw [Nat.testBit_land, testBit_apply_cflag]
  simp only [PARENB, show (0o400 : Nat) = 2 ^ 8 by norm_num, Nat.testBit_two_pow,
    Nat.zero_testBit]
  by_cases h8 : i = 8
  · subst h8; simp
  simp [h8, eq_comm]

theorem apply_cflag_land_CSTOPB (c : Nat) : apply_cflag c &&& CSTOPB = 0 := by
  apply Nat.eq_of_testBit_eq
  intro i
  rw [Nat.testBit_land, testBit_apply_cflag]
  simp only [CSTOPB, show (0o100 : Nat) = 2 ^ 6 by norm_num, Nat.testBit_two_pow,
    Nat.zero_testBit]
  by_cases h6 : i = 6
  · subst h6; simp
  simp [h6, eq_comm]

theorem apply_cflag_land_CRTSCTS (c : Nat) : apply_cflag c &&& CRTSCTS = 0 := by
  apply Nat.eq_of_testBit_eq
  intro i
  rw [Nat.testBit_land, testBit_apply_cflag]
  simp only [CRTSCTS, show (0o20000000000 : Nat) = 2 ^ 31 by norm_num, Nat.testBit_two_pow,
    Nat.zero_testBit]
  by_cases h31 : i = 31
  · subst h31; simp
  simp [h31, eq_comm]

theorem apply_cflag_land_CREAD (c : Nat) : apply_cflag c &&& CREAD = CREAD := by
  apply Nat.eq_of_testBit_eq
  intro i
  rw [Nat.testBit_land, testBit_apply_cflag]
  simp only [CREAD, show (0o200 : Nat) = 2 ^ 7 by norm_num, Nat.testBit_two_pow]
  by_cases h7 : i = 7
  · subst h7; simp
  simp [h7, eq_comm]

theorem apply_cflag_land_CLOCAL (c : Nat) : apply_cflag c &&& CLOCAL = CLOCAL := by
  apply Nat.eq_of_testBit_eq
  intro i
  rw [Nat.testBit_land, testBit_apply_cflag]
  simp only [CLOCAL, show (0o4000 : Nat) = 2 ^ 11 by norm_num, Nat.testBit_two_pow]
  by_cases h11 : i = 11
  · subst h11; simp
  simp [h11, eq_comm]

/-! ## Reads of the committed termios image -/

theorem configure_termios_length (tty : Buf) (le : Bool) (opts : SerialOptions) :
    (configure_termios tty le opts).length = tty.length := by
  unfold configure_termios
  simp [length_setUint8, length_setUint32]

theorem configure_termios_iflag (tty : Buf) (le : Bool) (opts : SerialOptions)
    (h : 24 ≤ tty.length) : getUint32 (configure_termios tty le opts) 0 le = 0 := by
  unfold configure_termios
  rw [getUint32_setUint8_outside _ 0 (17 + VMIN) _ le (by unfold VMIN; omega),
    getUint32_setUint8_outside _ 0 (17 + VTIME) _ le (by unfold VTIME; omega),
    getUint32_setUint32_outside _ 0 12 _ le le (by omega),
    getUint32_setUint32_outside _ 0 8 _ le le (by omega),
    getUint32_setUint32_outside _ 0 4 _ le le (by omega),
    getUint32_setUint32_self _ 0 0 le (by omega), Nat.zero_mod]

theorem configure_termios_oflag (tty : Buf) (le : Bool) (opts : SerialOptions)
    (h : 24 ≤ tty.length) : getUint32 (configure_termios tty le opts) 4 le = 0 := by
  unfold configure_termios
  rw [getUint32_setUint8_outside _ 4 (17 + VMIN) _ le (by unfold VMIN; omega),
    getUint32_setUint8_outside _ 4 (17 + VTIME) _ le (by unfold VTIME; omega),
    getUint32_setUint32_outside _ 4 12 _ le le (by omega),
    getUint32_setUint32_outside _ 4 8 _ le le (by omega),
    getUint32_setUint32_self _ 4 0 le (by simp only [length_setUint32]; omega), Nat.zero_mod]

theorem configure_termios_lflag (tty : Buf) (le : Bool) (opts : SerialOptions)
    (h : 24 ≤ tty.length) : getUint32 (configure_termios tty le opts) 12 le = 0 := by
  unfold configure_termios
  rw [getUint32_setUint8_outside _ 12 (17 + VMIN) _ le (by unfold VMIN; omega),
    getUint32_setUint8_outside _ 12 (17 + VTIME) _ le (by unfold VTIME; omega),
    getUint32_setUint32_self _ 12 0 le (by simp only [length_setUint32]; omega), Nat.zero_mod]

theorem configure_termios_cflag (tty : Buf) (le : Bool) (opts : SerialOptions)
    (h : 24 ≤ tty.length) :
    getUint32 (configure_termios tty le opts) 8 le
      = apply_cflag (getUint32 (setUint32 (setUint32 tty 0 0 le) 4 0 le) 8 le) := by
  unfold configure_termios
  rw [getUint32_setUint8_outside _ 8 (17 + VMIN) _ le (by unfold VMIN; omega),
    getUint32_setUint8_outside _ 8 (17 + VTIME) _ le (by unfold VTIME; omega),
    getUint32_setUint32_outside _ 8 12 _ le le (by omega),
    getUint32_setUint32_self _ 8 _ le (by simp only [length_setUint32]; omega),
    Nat.mod_eq_of_lt (apply_cflag_lt _)]

theorem configure_termios_vtime (tty : Buf) (le : Bool) (opts : SerialOptions)
    (h : 24 ≤ tty.length) :
    getUint8 (configure_termios tty le opts) (17 + VTIME)
      = (opts.timeout_in_deciseconds % 256).toNat := by
  unfold configure_termios
  rw [getUint8_setUint8_of_ne _ (17 + VMIN) (17 + VTIME) _ (by unfold VMIN VTIME; omega),
    getUint8_setUint8_self _ (17 + VTIME) _
      (by simp only [length_setUint8, length_setUint32]; unfold VTIME; omega)]

theorem configure_termios_vmin (tty : Buf) (le : Bool) (opts : SerialOptions)
    (h : 24 ≤ tty.length) :
    getUint8 (configure_termios tty le opts) (17 + VMIN)
      = (opts.minimum_number_of_chars_read % 256).toNat := by
  unfold configure_termios
  rw [getUint8_setUint8_self _ (17 + VMIN) _
    (by simp only [length_setUint8, length_setUint32]; unfold VMIN; omega)]

/-! ## Lemmas about jsSplit and the read_line loop -/

theorem jsSplit_ne_nil (sep : Char) (s : Str) : jsSplit sep s ≠ [] := by
  cases s with
  | nil => simp [jsSplit]
  | cons c rest =>
    rw [jsSplit]
    cases h : jsSplit sep rest with
    | nil => simp
    | cons hd tl => by_cases hc : c = sep <;> simp [hc]

theorem joinWith_jsSplit (sep : Char) (s : Str) : joinWith sep (jsSplit sep s) = s := by
  induction s with
  | nil => rfl
  | cons c rest ih =>
    cases h : jsSplit sep rest with
    | nil => exact absurd h (jsSplit_ne_nil sep rest)
    | cons hd tl =>
      rw [h] at ih
      by_cases hc : c = sep
      · simp only [jsSplit, h, if_pos hc, joinWith]
        simpa [hc] using ih
      · simp only [jsSplit, h, if_neg hc, joinWith]
        cases tl with
        | nil =>
          simp only [joinWith] at ih ⊢
          simp [ih]
        | cons t ts =>
          simp only [joinWith] at ih ⊢
          simp only [List.cons_append, List.append_assoc] at ih ⊢
          rw [ih]

theorem getLastD_of_ne_nil (l : List Str) (a b : Str) (h : l ≠ []) :
    l.getLastD a = l.getLastD b := by
  cases l with
  | nil => exact absurd rfl h
  | cons x xs => rw [List.getLastD_cons, List.getLastD_cons]

theorem dropLast_getLastD_joinWith (sep : Char) (ls : List Str) (h : ls ≠ []) :
    (ls.dropLast.map (fun l => l ++ [sep])).flatten ++ ls.getLastD [] = joinWith sep ls := by
  induction ls with
  | nil => exact absurd rfl h
  | cons l rest ih =>
    cases rest with
    | nil => simp [joinWith]
    | cons r rs =>
      rw [List.dropLast_cons₂, List.map_cons, List.flatten_cons,
        List.getLastD_cons, List.append_assoc, getLastD_of_ne_nil (r :: rs) l [] (by simp)]
      rw [ih (by simp)]
      simp only [joinWith]
      simp

theorem not_mem_of_mem_jsSplit (sep : Char) (s l : Str) (h : l ∈ jsSplit sep s) :
    sep ∉ l := by
  induction s generalizing l with
  | nil =>
    simp [jsSplit] at h
    subst h
    simp
  | cons c rest ih =>
    cases hs : jsSplit sep rest with
    | nil => exact absurd hs (jsSplit_ne_nil sep rest)
    | cons hd tl =>
      simp only [jsSplit, hs] at h
      by_cases hc : c = sep
      · rw [if_pos hc] at h
        rcases List.mem_cons.mp h with he | h2
        · subst he; simp
        · exact ih l (by rw [hs]; exact h2)
      · rw [if_neg hc] at h
        rcases List.mem_cons.mp h with he | h2
        · subst he
          intro hmem
          rcases List.mem_cons.mp hmem with he2 | hmem2
          · exact hc he2.symm
          · exact ih hd (by rw [hs]; exact List.mem_cons_self hd tl) hmem2
        · exact ih l (by rw [hs]; exact List.mem_cons_of_mem hd h2)

/-- Content preservation of the read_line loop: joining the yielded lines
with newlines and appending the pending text restores the initial pending
text followed by everything read. -/
theorem read_line_run_content (chunks : List Str) (data : Str) :
    ((read_line_run data chunks).2.map (fun l => l ++ [Char.ofNat 10])).flatten
      ++ (read_line_run data chunks).1 = data ++ chunks.flatten := by
  induction chunks generalizing data with
  | nil => simp [read_line_run]
  | cons chunk rest ih =>
    by_cases hc : chunk.length = 0
    · have hnil : chunk = [] := List.length_eq_zero.mp hc
      subst hnil
      simp only [read_line_run, read_line_step, if_pos rfl]
      simpa using ih data
    · simp only [read_line_run, read_line_step, if_neg hc]
      rw [List.map_append, List.flatten_append, List.append_assoc, ih]
      rw [← List.append_assoc]
      rw [dropLast_getLastD_joinWith (Char.ofNat 10) _ (jsSplit_ne_nil _ _)]
      rw [joinWith_jsSplit]
      simp

/-- No line the read_line loop yields contains the newline character. -/
theorem read_line_run_no_newline (chunks : List Str) (data l : Str)
    (h : l ∈ (read_line_run data chunks).2) : Char.ofNat 10 ∉ l := by
  induction chunks generalizing data with
  | nil => simp [read_line_run] at h
  | cons chunk rest ih =>
    simp only [read_line_run, List.mem_append] at h
    rcases h with h | h
    · unfold read_line_step at h
      by_cases hc : chunk.length = 0
      · rw [if_pos hc] at h
        simp at h
      · rw [if_neg hc] at h
        exact not_mem_of_mem_jsSplit (Char.ofNat 10) (data ++ chunk) l
          (List.dropLast_subset _ h)
    · exact ih _ h

/-! ## Sample values for concrete instantiations -/

/-- Sample options: B115200, one second timeout, no minimum, default buffer. -/
def opts0 : SerialOptions := ⟨Baudrate.B115200, 10, 0, none⟩

/-- A zeroed 100-byte termios buffer, as `new ArrayBuffer(100)` allocates. -/
def tty0 : Buf := List.replicate 100 0

/-- Oracle of an `open` run whose OS open yields descriptor 3 and whose
`tcgetattr` fails. -/
def oGetFail : OpenOracle := ⟨3, -1, tty0, 0, tty0, 0, ""⟩

/-- Oracle of an `open` run whose OS open yields descriptor 3, whose termios
reads succeed and whose committing `tcsetattr` fails. -/
def oSetFail : OpenOracle := ⟨3, 0, tty0, 0, tty0, -1, ""⟩

/-! ## The claims -/

/-- C1, counterexample: on the instance with descriptor 3, a first `close`
succeeds, yet a second `close` on the same instance still issues an OS
close syscall (the claim says it must not), and neither a `read` nor the
second `close` after the successful close fails with `ClosedHandle`: the
class keeps no open/closed state, so the claim is false on this code. -/
theorem C1_close_counterexample :
    ((⟨3, opts0⟩ : SerialPort).close 0 "").1 = Except.ok ()
    ∧ ((((⟨3, opts0⟩ : SerialPort).close 0 "").2.1.close 0 "").2.2 = [Syscall.osClose 3])
    ∧ ¬ failsWith ((((⟨3, opts0⟩ : SerialPort).close 0 "").2.1.read 0 [] "").1)
        ErrKind.ClosedHandle
    ∧ ¬ failsWith ((((⟨3, opts0⟩ : SerialPort).close 0 "").2.1.write [65] 1 "").1)
        ErrKind.ClosedHandle
    ∧ ¬ failsWith ((((⟨3, opts0⟩ : SerialPort).close 0 "").2.1.close 0 "").1)
        ErrKind.ClosedHandle := by
  decide

/-- C1, amended: `close` issues exactly one OS close syscall on every
invocation, succeeds iff the OS result is nonnegative, fails with the close
error (never `ClosedHandle`) iff it is negative, and leaves the instance
state unchanged; consequently a second close issues a second OS close
syscall on the same descriptor, and `read`, `write` and `close` invoked
after a successful close never fail with `ClosedHandle` (they pass the
stale descriptor to the OS again). -/
theorem C1_close_amended (p : SerialPort) (ret : Int) (e : String) :
    (p.close ret e).2.2 = [Syscall.osClose p.fd]
    ∧ ((p.close ret e).1 = Except.ok () ↔ 0 ≤ ret)
    ∧ (failsWith (p.close ret e).1 ErrKind.CloseError ↔ ret < 0)
    ∧ (p.close ret e).2.1 = p
    ∧ (∀ ret2 e2, ((p.close ret e).2.1.close ret2 e2).2.2 = [Syscall.osClose p.fd])
    ∧ (∀ rlen buf er,
        ¬ failsWith ((p.close ret e).2.1.read rlen buf er).1 ErrKind.ClosedHandle)
    ∧ (∀ data wlen er,
        ¬ failsWith ((p.close ret e).2.1.write data wlen er).1 ErrKind.ClosedHandle)
    ∧ (∀ ret2 e2,
        ¬ failsWith ((p.close ret e).2.1.close ret2 e2).1 ErrKind.ClosedHandle) := by
  refine ⟨?_, ?_, ?_, ?_, ?_, ?_, ?_, ?_⟩
  · unfold SerialPort.close
    split_ifs <;> rfl
  · unfold SerialPort.close
    split_ifs with h <;> simp <;> omega
  · unfold SerialPort.close
    split_ifs with h <;> simp [failsWith] <;> omega
  · unfold SerialPort.close
    split_ifs <;> rfl
  · intro ret2 e2
    unfold SerialPort.close
    split_ifs <;> rfl
  · intro rlen buf er
    unfold SerialPort.close SerialPort.read
    split_ifs <;> simp [failsWith]
  · intro data wlen er
    unfold SerialPort.close SerialPort.write
    split_ifs <;> simp [failsWith]
  · intro ret2 e2
    unfold SerialPort.close
    split_ifs <;> simp [failsWith]

/-- C2: for every 100-byte buffer left by `tcgetattr`/`cfsetspeed`, every
endianness and every option record (the baudrate being any enum member),
the termios image committed by `open` has input, output and local flags
exactly zero, and its control flags have the character-size field equal to
CS8, parity disabled, one stop bit, hardware flow control off, and
receiver-enable and ignore-modem-control set. -/
theorem C2_committed_flags (tty : Buf) (le : Bool) (opts : SerialOptions)
    (h : tty.length = 100) :
    getUint32 (configure_termios tty le opts) 0 le = 0
    ∧ getUint32 (configure_termios tty le opts) 4 le = 0
    ∧ getUint32 (configure_termios tty le opts) 12 le = 0
    ∧ getUint32 (configure_termios tty le opts) 8 le &&& CSIZE = CS8
    ∧ getUint32 (configure_termios tty le opts) 8 le &&& PARENB = 0
    ∧ getUint32 (configure_termios tty le opts) 8 le &&& CSTOPB = 0
    ∧ getUint32 (configure_termios tty le opts) 8 le &&& CRTSCTS = 0
    ∧ getUint32 (configure_termios tty le opts) 8 le &&& CREAD = CREAD
    ∧ getUint32 (configure_termios tty le opts) 8 le &&& CLOCAL = CLOCAL := by
  have h24 : 24 ≤ tty.length := by omega
  refine ⟨configure_termios_iflag tty le opts h24, configure_termios_oflag tty le opts h24,
    configure_termios_lflag tty le opts h24, ?_, ?_, ?_, ?_, ?_, ?_⟩ <;>
    rw [configure_termios_cflag tty le opts h24]
  · exact apply_cflag_land_CSIZE _
  · exact apply_cflag_land_PARENB _
  · exact apply_cflag_land_CSTOPB _
  · exact apply_cflag_land_CRTSCTS _
  · exact apply_cflag_land_CREAD _
  · exact apply_cflag_land_CLOCAL _

/-- C2, witness at a concrete buffer and options. -/
theorem C2_committed_flags_witness :
    getUint32 (configure_termios tty0 true opts0) 0 true = 0
    ∧ getUint32 (configure_termios tty0 true opts0) 4 true = 0
    ∧ getUint32 (configure_termios tty0 true opts0) 12 true = 0
    ∧ getUint32 (configure_termios tty0 true opts0) 8 true &&& CSIZE = CS8
    ∧ getUint32 (configure_termios tty0 true opts0) 8 true &&& PARENB = 0
    ∧ getUint32 (configure_termios tty0 true opts0) 8 true &&& CSTOPB = 0
    ∧ getUint32 (configure_termios tty0 true opts0) 8 true &&& CRTSCTS = 0
    ∧ getUint32 (configure_termios tty0 true opts0) 8 true &&& CREAD = CREAD
    ∧ getUint32 (configure_termios tty0 true opts0) 8 true &&& CLOCAL = CLOCAL :=
  C2_committed_flags tty0 true opts0 (by decide)

/-- C3: when the underlying reads deliver exactly "AB", "C\n", "DE\n", "F",
the line iterator yields exactly "ABC" then "DE" and retains "F" pending,
yielding no third line. -/
theorem C3_line_iterator :
    read_line_run []
      [['A', 'B'], ['C', Char.ofNat 10], ['D', 'E', Char.ofNat 10], ['F']]
      = (['F'], [['A', 'B', 'C'], ['D', 'E']]) := by
  decide

/-- C5: on the failing inputs where the OS open yields descriptor 3 and a
later termios step fails, `open` raises the corresponding error without
ever issuing an OS close for the descriptor: the descriptor leaks, as the
code stands, against the claim (the specification flags this as a defect to
fix). -/
theorem C5_open_descriptor_leak :
    (failsWith (openPort "/dev/ttyUSB0" opts0 true oGetFail).1 ErrKind.GetAttributesFailed
      ∧ Syscall.osClose 3 ∉ (openPort "/dev/ttyUSB0" opts0 true oGetFail).2)
    ∧ (failsWith (openPort "/dev/ttyUSB0" opts0 true oSetFail).1 ErrKind.SetAttributesFailed
      ∧ Syscall.osClose 3 ∉ (openPort "/dev/ttyUSB0" opts0 true oSetFail).2) := by
  decide

/-- C4: `open` executes its steps in order, short-circuiting on failure:
when the OS open returns a negative descriptor it fails with `OpenFailed`
(whose message ends in the rendered errno string) having issued only the
open syscall; with a nonnegative descriptor and a nonzero `tcgetattr` it
fails with `GetAttributesFailed` after open and tcgetattr only; with
`tcgetattr` zero it continues through `cfsetspeed` to `tcsetattr` and fails
with `SetAttributesFailed` exactly when `tcsetattr` is nonzero, succeeding
otherwise; each error kind occurs exactly under its condition, and the
result never depends on the `cfsetspeed` return value. -/
theorem C4_open_steps (file : String) (opts : SerialOptions) (le : Bool) (o : OpenOracle) :
    (o.fd < 0 →
      openPort file opts le o
        = (Except.error ⟨ErrKind.OpenFailed, openFailedMsg file o.errnoStr⟩,
            [Syscall.osOpen file (O_RDWR ||| O_NOCTTY ||| O_SYNC)]))
    ∧ (∃ pre, openFailedMsg file o.errnoStr = pre ++ o.errnoStr)
    ∧ (failsWith (openPort file opts le o).1 ErrKind.OpenFailed ↔ o.fd < 0)
    ∧ (0 ≤ o.fd → o.tcgetattrRet ≠ 0 →
      openPort file opts le o
        = (Except.error ⟨ErrKind.GetAttributesFailed, "tcgetattr: " ++ o.errnoStr⟩,
            [Syscall.osOpen file (O_RDWR ||| O_NOCTTY ||| O_SYNC), Syscall.osTcgetattr o.fd]))
    ∧ (failsWith (openPort file opts le o).1 ErrKind.GetAttributesFailed
        ↔ (0 ≤ o.fd ∧ o.tcgetattrRet ≠ 0))
    ∧ (0 ≤ o.fd → o.tcgetattrRet = 0 → o.tcsetattrRet ≠ 0 →
      openPort file opts le o
        = (Except.error ⟨ErrKind.SetAttributesFailed, "tcsetattr: " ++ o.errnoStr⟩,
            [Syscall.osOpen file (O_RDWR ||| O_NOCTTY ||| O_SYNC), Syscall.osTcgetattr o.fd,
              Syscall.osCfsetspeed opts.baudrate.toNat,
              Syscall.osTcsetattr o.fd TCSANOW (configure_termios o.ttyAfterSpeed le opts)]))
    ∧ (failsWith (openPort file opts le o).1 ErrKind.SetAttributesFailed
        ↔ (0 ≤ o.fd ∧ o.tcgetattrRet = 0 ∧ o.tcsetattrRet ≠ 0))
    ∧ (0 ≤ o.fd → o.tcgetattrRet = 0 → o.tcsetattrRet = 0 →
      openPort file opts le o
        = (Except.ok ⟨o.fd, opts⟩,
            [Syscall.osOpen file (O_RDWR ||| O_NOCTTY ||| O_SYNC), Syscall.osTcgetattr o.fd,
              Syscall.osCfsetspeed opts.baudrate.toNat,
              Syscall.osTcsetattr o.fd TCSANOW (configure_termios o.ttyAfterSpeed le opts)]))
    ∧ (∀ r, openPort file opts le
        ⟨o.fd, o.tcgetattrRet, o.ttyAfterGet, r, o.ttyAfterSpeed, o.tcsetattrRet, o.errnoStr⟩
        = openPort file opts le o) := by
  refine ⟨?_, ?_, ?_, ?_, ?_, ?_, ?_, ?_, ?_⟩
  · intro h
    unfold openPort
    rw [if_pos h]
  · exact ⟨"Couldn" ++ apostrophe ++ "t open " ++ apostrophe ++ file ++ apostrophe ++ ": ",
      rfl⟩
  · unfold openPort
    split_ifs with h1 h2 h3 <;> simp [failsWith] <;> omega
  · intro h1 h2
    unfold openPort
    rw [if_neg (by omega), if_pos h2]
  · unfold openPort
    split_ifs with h1 h2 h3 <;> simp [failsWith] <;> omega
  · intro h1 h2 h3
    unfold openPort
    rw [if_neg (by omega), if_neg (by simp [h2]), if_pos h3]
  · unfold openPort
    split_ifs with h1 h2 h3 <;> simp [failsWith] <;> omega
  · intro h1 h2 h3
    unfold openPort
    rw [if_neg (by omega), if_neg (by simp [h2]), if_neg (by simp [h3])]
  · intro r
    rfl

/-- C6: for every timeout and minimum-read count in [0, 255], the committed
control-character bytes at offsets 17+VTIME and 17+VMIN read back exactly
the values written. -/
theorem C6_vtime_vmin_roundtrip (tty : Buf) (le : Bool) (b : Baudrate) (t m : Int)
    (bs : Option Nat) (h : tty.length = 100) (ht0 : 0 ≤ t) (ht1 : t ≤ 255)
    (hm0 : 0 ≤ m) (hm1 : m ≤ 255) :
    (getUint8 (configure_termios tty le ⟨b, t, m, bs⟩) (17 + VTIME) : Int) = t
    ∧ (getUint8 (configure_termios tty le ⟨b, t, m, bs⟩) (17 + VMIN) : Int) = m := by
  rw [configure_termios_vtime tty le _ (by omega), configure_termios_vmin tty le _ (by omega)]
  constructor <;> simp only [] <;> omega

/-- C6, witness at a concrete buffer with timeout 10 and minimum 0. -/
theorem C6_vtime_vmin_roundtrip_witness :
    (getUint8 (configure_termios tty0 true ⟨Baudrate.B115200, 10, 0, none⟩)
      (17 + VTIME) : Int) = 10
    ∧ (getUint8 (configure_termios tty0 true ⟨Baudrate.B115200, 10, 0, none⟩)
      (17 + VMIN) : Int) = 0 :=
  C6_vtime_vmin_roundtrip tty0 true Baudrate.B115200 10 0 none (by decide) (by decide)
    (by decide) (by decide) (by decide)

/-- C7: `write` issues one OS write of the full buffer, returns without
error exactly when the OS reports the full length written, fails with the
I/O error exactly when the OS result is negative, and fails with the
short-write error whenever fewer bytes than requested are reported written;
no second write is issued (no retry). -/
theorem C7_write (p : SerialPort) (data : List Nat) (wlen : Int) (e : String) :
    (p.write data wlen e).2 = [Syscall.osWrite p.fd data.length]
    ∧ ((p.write data wlen e).1 = Except.ok () ↔ wlen = (data.length : Int))
    ∧ (failsWith (p.write data wlen e).1 ErrKind.IoError ↔ wlen < 0)
    ∧ (0 ≤ wlen → wlen < (data.length : Int) →
        failsWith (p.write data wlen e).1 ErrKind.ShortWrite) := by
  refine ⟨?_, ?_, ?_, ?_⟩
  · unfold SerialPort.write
    split_ifs <;> rfl
  · unfold SerialPort.write
    split_ifs with h1 h2 <;> simp <;> omega
  · unfold SerialPort.write
    split_ifs with h1 h2 <;> simp [failsWith] <;> omega
  · intro h1 h2
    unfold SerialPort.write
    rw [if_neg (by omega), if_pos (by omega)]
    exact ⟨_, rfl⟩

/-- C7, witness: a short write (2 of 3 bytes) fails with the short-write
error. -/
theorem C7_write_witness :
    failsWith ((⟨3, opts0⟩ : SerialPort).write [65, 66, 67] 2 "").1 ErrKind.ShortWrite :=
  (C7_write ⟨3, opts0⟩ [65, 66, 67] 2 "").2.2.2 (by decide) (by decide)

/-- C8: `read` issues one OS read of at most `buffer_size` bytes (255 when
`buffer_size` is absent) and returns exactly the filled prefix of the
buffer; a zero-byte OS read yields the empty byte sequence without error,
and the I/O error occurs exactly when the OS result is negative. -/
theorem C8_read (p : SerialPort) (rlen : Int) (buf : List Nat) (e : String) :
    (p.read rlen buf e).2 = [Syscall.osRead p.fd (p.options.buffer_size.getD 255)]
    ∧ (p.options.buffer_size = none → (p.read rlen buf e).2 = [Syscall.osRead p.fd 255])
    ∧ (rlen = 0 → (p.read rlen buf e).1 = Except.ok [])
    ∧ (0 ≤ rlen → (p.read rlen buf e).1 = Except.ok (buf.take rlen.toNat))
    ∧ (failsWith (p.read rlen buf e).1 ErrKind.IoError ↔ rlen < 0) := by
  refine ⟨?_, ?_, ?_, ?_, ?_⟩
  · unfold SerialPort.read
    split_ifs <;> rfl
  · intro hnone
    unfold SerialPort.read
    rw [hnone]
    split_ifs <;> rfl
  · intro h0
    unfold SerialPort.read
    rw [if_neg (by omega), h0]
    rfl
  · intro h0
    unfold SerialPort.read
    rw [if_neg (by omega)]
  · unfold SerialPort.read
    split_ifs with h1 <;> simp [failsWith] <;> omega

/-- C8, witness: a zero-byte OS read returns the empty byte sequence. -/
theorem C8_read_witness :
    ((⟨3, opts0⟩ : SerialPort).read 0 [7, 7, 7] "").1 = Except.ok [] :=
  (C8_read ⟨3, opts0⟩ 0 [7, 7, 7] "").2.2.1 rfl

/-- C9: `open` stores the timeout and minimum-read counts reduced modulo
256 into the control-character bytes, for every integer value, in
particular for values outside [0, 255]: no error is raised and no clamping
to 255 occurs (the `DataView.setUint8` truncation). -/
theorem C9_setUint8_truncation (tty : Buf) (le : Bool) (b : Baudrate) (t m : Int)
    (bs : Option Nat) (h : tty.length = 100) :
    (getUint8 (configure_termios tty le ⟨b, t, m, bs⟩) (17 + VTIME) : Int) = t % 256
    ∧ (getUint8 (configure_termios tty le ⟨b, t, m, bs⟩) (17 + VMIN) : Int) = m % 256 := by
  rw [configure_termios_vtime tty le _ (by omega), configure_termios_vmin tty le _ (by omega)]
  constructor <;> simp only [] <;> omega

/-- C9, witness: timeout 300 is stored as 44 (not clamped to 255) and
minimum -1 as 255. -/
theorem C9_setUint8_truncation_witness :
    (getUint8 (configure_termios tty0 true ⟨Baudrate.B115200, 300, -1, none⟩)
      (17 + VTIME) : Int) = 44
    ∧ (getUint8 (configure_termios tty0 true ⟨Baudrate.B115200, 300, -1, none⟩)
      (17 + VMIN) : Int) = 255 := by
  have h := C9_setUint8_truncation tty0 true Baudrate.B115200 300 (-1) none (by decide)
  exact ⟨h.1.trans (by decide), h.2.trans (by decide)⟩

/-- C10: over every finite chunk sequence, the line iterator preserves
content (the yielded lines, each followed by a newline, concatenated with
the pending segment equal the concatenation of the chunks), no yielded
line contains the newline character, and an empty chunk yields no line and
leaves the pending segment unchanged. -/
theorem C10_line_iterator_invariant (chunks : List Str) :
    (((read_line_run [] chunks).2.map (fun l => l ++ [Char.ofNat 10])).flatten
        ++ (read_line_run [] chunks).1 = chunks.flatten)
    ∧ (∀ l ∈ (read_line_run [] chunks).2, Char.ofNat 10 ∉ l)
    ∧ (∀ data : Str, read_line_step data [] = (data, [])) := by
  refine ⟨?_, ?_, ?_⟩
  · simpa using read_line_run_content chunks []
  · intro l hl
    exact read_line_run_no_newline chunks [] l hl
  · intro data
    rfl

end DenoSerial
